import Mathlib

/-!
Shallow embedding of the string-serializer service (`src/main.py`):
the analyzer (normalization, palindrome flag, character-frequency map,
word count, SHA-256 content hash), the record store (create/get/delete/list
over an insertion-ordered mapping), the structured filter matcher, and the
natural-language query translator, together with theorems settling the
behavioral claims about them.

Strings are modelled over `List Char`; Python's ASCII-range `str.lower`,
whitespace splitting and the `re` patterns used by the source are embedded
directly.  Machine words inside SHA-256 are `Nat` reduced mod 2^32.
-/

deriving instance DecidableEq for Except

namespace StringSerializer

/-- Python `str.lower` restricted to the ASCII range (all inputs exercised by
the service's tests and heuristics are ASCII): maps A-Z to a-z, leaves
everything else unchanged. -/
def pyLower (c : Char) : Char :=
  if c.toNat ≥ 65 ∧ c.toNat ≤ 90 then Char.ofNat (c.toNat + 32) else c

/-- ASCII word characters of Python's `\w` (letters, digits, underscore). -/
def isWordChar (c : Char) : Bool :=
  decide ((97 ≤ c.toNat ∧ c.toNat ≤ 122) ∨ (65 ≤ c.toNat ∧ c.toNat ≤ 90) ∨
    (48 ≤ c.toNat ∧ c.toNat ≤ 57) ∨ c.toNat = 95)

/-- ASCII alphanumeric test (letters and digits). -/
def isAlnum (c : Char) : Bool :=
  decide ((97 ≤ c.toNat ∧ c.toNat ≤ 122) ∨ (65 ≤ c.toNat ∧ c.toNat ≤ 90) ∨
    (48 ≤ c.toNat ∧ c.toNat ≤ 57))

/-- `clean_for_char_ops` from the source: lowercase the string, then delete
every character matched by `[\W_]` (non-word characters and underscore). -/
def clean_for_char_ops (s : List Char) : List Char :=
  (s.map pyLower).filter (fun c => isWordChar c && !(decide (c.toNat = 95)))

/-- `palindrome` from the source: the cleaned string equals its reverse. -/
def palindrome (s : List Char) : Bool :=
  clean_for_char_ops s == (clean_for_char_ops s).reverse

/-- One step of building a Python dict of counts: increment the value at key
`c`, appending a fresh binding at the end when the key is absent (Python
dicts preserve insertion order and update in place). -/
def bump (m : List (Char × Nat)) (c : Char) : List (Char × Nat) :=
  match m with
  | [] => [(c, 1)]
  | (k, v) :: rest => if k = c then (k, v + 1) :: rest else (k, v) :: bump rest c

/-- `char_count` from the source: occurrence counts of the cleaned string's
characters, as an insertion-ordered association list. -/
def char_count (s : List Char) : List (Char × Nat) :=
  (clean_for_char_ops s).foldl bump []

/-- `unique_characters_count` from the source: `len(char_count(data).keys())`. -/
def unique_characters_count (s : List Char) : Nat :=
  (char_count s).length

/-- Python whitespace for `str.split()` / `str.strip()` (ASCII range). -/
def isPyWs (c : Char) : Bool :=
  c = ' ' ∨ c = '\t' ∨ c = '\n' ∨ c = '\r' ∨ c = '\x0b' ∨ c = '\x0c'

/-- Counts the whitespace-delimited tokens of a character list, i.e.
`len(data.split())`; `prevWs` records whether the previous character was
whitespace (or the start of input). -/
def countWordsAux : Bool → List Char → Nat
  | _, [] => 0
  | prevWs, c :: rest =>
    if isPyWs c then countWordsAux true rest
    else (if prevWs then 1 else 0) + countWordsAux false rest

/-- `word_count` from the source: number of whitespace-run-delimited tokens
of the raw (uncleaned) string. -/
def word_count (s : List Char) : Nat :=
  countWordsAux true s

/-! ### SHA-256 (`generate_sha_256`, via `hashlib.sha256` on the UTF-8 bytes) -/

/-- UTF-8 encoding of a single code point, as a list of byte values. -/
def utf8EncodeChar (c : Char) : List Nat :=
  let n := c.toNat
  if n < 128 then [n]
  else if n < 2048 then [192 + n / 64, 128 + n % 64]
  else if n < 65536 then [224 + n / 4096, 128 + (n / 64) % 64, 128 + n % 64]
  else [240 + n / 262144, 128 + (n / 4096) % 64, 128 + (n / 64) % 64, 128 + n % 64]

/-- UTF-8 bytes of a character list (`data.encode("utf-8")`). -/
def utf8Bytes (s : List Char) : List Nat :=
  s.foldr (fun c acc => utf8EncodeChar c ++ acc) []

/-- 32-bit right rotation on `Nat` values below 2^32. -/
def rotr32 (n x : Nat) : Nat :=
  ((x >>> n) ||| (x <<< (32 - n))) % 4294967296

/-- The 64 SHA-256 round constants (decimal). -/
def sha256K : List Nat :=
  [1116352408, 1899447441, 3049323471, 3921009573, 961987163, 1508970993,
   2453635748, 2870763221, 3624381080, 310598401, 607225278, 1426881987,
   1925078388, 2162078206, 2614888103, 3248222580, 3835390401, 4022224774,
   264347078, 604807628, 770255983, 1249150122, 1555081692, 1996064986,
   2554220882, 2821834349, 2952996808, 3210313671, 3336571891, 3584528711,
   113926993, 338241895, 666307205, 773529912, 1294757372, 1396182291,
   1695183700, 1986661051, 2177026350, 2456956037, 2730485921, 2820302411,
   3259730800, 3345764771, 3516065817, 3600352804, 4094571909, 275423344,
   430227734, 506948616, 659060556, 883997877, 958139571, 1322822218,
   1537002063, 1747873779, 1955562222, 2024104815, 2227730452, 2361852424,
   2428436474, 2756734187, 3204031479, 3329325298]

/-- Big-endian bytes of an 8-byte (64-bit) value. -/
def be64 (n : Nat) : List Nat :=
  [(n >>> 56) % 256, (n >>> 48) % 256, (n >>> 40) % 256, (n >>> 32) % 256,
   (n >>> 24) % 256, (n >>> 16) % 256, (n >>> 8) % 256, n % 256]

/-- SHA-256 message padding: append `0x80`, zero bytes to 56 mod 64, then the
bit length as 8 big-endian bytes. -/
def sha256Pad (msg : List Nat) : List Nat :=
  let len := msg.length
  let zeros := (119 - len % 64) % 64
  msg ++ [128] ++ List.replicate zeros 0 ++ be64 (len * 8)

/-- Splits a byte list into 64-byte chunks (drops a trailing short chunk;
padded input is always a multiple of 64). -/
def chunks64 (l : List Nat) : List (List Nat) :=
  (l.foldl
    (fun st b =>
      let cur := st.2 ++ [b]
      if cur.length = 64 then (st.1 ++ [cur], []) else (st.1, cur))
    (([] : List (List Nat)), ([] : List Nat))).1

/-- Packs consecutive groups of 4 bytes into big-endian 32-bit words. -/
def words32 : List Nat → List Nat
  | b0 :: b1 :: b2 :: b3 :: rest =>
      (b0 * 16777216 + b1 * 65536 + b2 * 256 + b3) :: words32 rest
  | _ => []

/-- Extends 16 message-schedule words to 64. -/
def sha256Schedule (ws : List Nat) : List Nat :=
  (List.range 48).foldl
    (fun acc _ =>
      let i := acc.length
      let w15 := acc.getD (i - 15) 0
      let w2 := acc.getD (i - 2) 0
      let s0 := (rotr32 7 w15) ^^^ (rotr32 18 w15) ^^^ (w15 >>> 3)
      let s1 := (rotr32 17 w2) ^^^ (rotr32 19 w2) ^^^ (w2 >>> 10)
      acc ++ [(acc.getD (i - 16) 0 + s0 + acc.getD (i - 7) 0 + s1) % 4294967296])
    ws

/-- One round of the SHA-256 compression function on the working state
`(a, b, c, d, e, f, g, h)` with schedule word `w` and constant `k`. -/
def sha256Round (st : Nat × Nat × Nat × Nat × Nat × Nat × Nat × Nat)
    (kw : Nat × Nat) : Nat × Nat × Nat × Nat × Nat × Nat × Nat × Nat :=
  let (a, b, c, d, e, f, g, h) := st
  let (k, w) := kw
  let S1 := (rotr32 6 e) ^^^ (rotr32 11 e) ^^^ (rotr32 25 e)
  let ch := (e &&& f) ^^^ ((4294967295 - e) &&& g)
  let temp1 := (h + S1 + ch + k + w) % 4294967296
  let S0 := (rotr32 2 a) ^^^ (rotr32 13 a) ^^^ (rotr32 22 a)
  let maj := (a &&& b) ^^^ (a &&& c) ^^^ (b &&& c)
  let temp2 := (S0 + maj) % 4294967296
  ((temp1 + temp2) % 4294967296, a, b, c, (d + temp1) % 4294967296, e, f, g)

/-- Processes one 64-byte block, updating the 8-word hash state. -/
def sha256Block (hs : List Nat) (block : List Nat) : List Nat :=
  let w := sha256Schedule (words32 block)
  let a0 := hs.getD 0 0
  let b0 := hs.getD 1 0
  let c0 := hs.getD 2 0
  let d0 := hs.getD 3 0
  let e0 := hs.getD 4 0
  let f0 := hs.getD 5 0
  let g0 := hs.getD 6 0
  let h0 := hs.getD 7 0
  let (a, b, c, d, e, f, g, h) :=
    (sha256K.zip w).foldl sha256Round (a0, b0, c0, d0, e0, f0, g0, h0)
  [(a0 + a) % 4294967296, (b0 + b) % 4294967296, (c0 + c) % 4294967296,
   (d0 + d) % 4294967296, (e0 + e) % 4294967296, (f0 + f) % 4294967296,
   (g0 + g) % 4294967296, (h0 + h) % 4294967296]

/-- The initial SHA-256 hash state (decimal). -/
def sha256H0 : List Nat :=
  [1779033703, 3144134277, 1013904242, 2773480762,
   1359893119, 2600822924, 528734635, 1541459225]

/-- Lowercase hexadecimal digit for a value below 16. -/
def hexDigit (n : Nat) : Char :=
  if n < 10 then Char.ofNat (48 + n) else Char.ofNat (87 + n)

/-- Eight lowercase hex digits of a 32-bit word, most significant first. -/
def hex32 (n : Nat) : List Char :=
  [hexDigit ((n >>> 28) % 16), hexDigit ((n >>> 24) % 16),
   hexDigit ((n >>> 20) % 16), hexDigit ((n >>> 16) % 16),
   hexDigit ((n >>> 12) % 16), hexDigit ((n >>> 8) % 16),
   hexDigit ((n >>> 4) % 16), hexDigit (n % 16)]

/-- `generate_sha_256` from the source: lowercase hex digest of the SHA-256
hash of the string's UTF-8 bytes (64 hex characters). -/
def generate_sha_256 (s : List Char) : List Char :=
  let padded := sha256Pad (utf8Bytes s)
  let final := (chunks64 padded).foldl sha256Block sha256H0
  final.foldr (fun w acc => hex32 w ++ acc) []

/-! ### Data model and record store -/

/-- The derived `Properties` record of a stored string. -/
structure Properties where
  length : Nat
  is_palindrome : Bool
  unique_characters : Nat
  word_count : Nat
  sha256_hash : List Char
  character_frequency_map : List (Char × Nat)
deriving DecidableEq

/-- A stored record: identifier, raw value, derived properties, timestamp. -/
structure StoredString where
  id : List Char
  value : List Char
  properties : Properties
  created_at : List Char
deriving DecidableEq

instance : Inhabited Properties :=
  ⟨⟨0, false, 0, 0, [], []⟩⟩

instance : Inhabited StoredString :=
  ⟨⟨[], [], default, []⟩⟩

/-- The in-memory store `string_db`: an insertion-ordered mapping from
identifier to record, as Python dicts preserve insertion order. -/
abbrev Db := List (List Char × StoredString)

/-- The `Properties` computed by `create_string` for a raw value. -/
def analyze (value : List Char) : Properties :=
  { length := value.length
  , is_palindrome := palindrome value
  , unique_characters := unique_characters_count value
  , word_count := word_count value
  , sha256_hash := generate_sha_256 value
  , character_frequency_map := char_count value }

/-- Python dict key lookup (`identifier in string_db` / `string_db[identifier]`). -/
def lookupKey : Db → List Char → Option StoredString
  | [], _ => none
  | (k, v) :: rest, key => if k = key then some v else lookupKey rest key

/-- Python dict assignment `string_db[k] = v`: replaces in place when the key
exists, otherwise appends at the end. -/
def upsert : Db → List Char → StoredString → Db
  | [], k, v => [(k, v)]
  | (k', v') :: rest, k, v =>
    if k' = k then (k, v) :: rest else (k', v') :: upsert rest k v

/-- The records of the store, in insertion order (`string_db.values()`). -/
def dbValues (db : Db) : List StoredString :=
  db.map Prod.snd

inductive StoreErr where
  | duplicate
  | notFound
deriving DecidableEq

/-- `create_string` from the source: rejects a raw value that is already
stored (exact raw-value equality), otherwise analyzes it, keys the new record
by its SHA-256 digest and inserts it.  Returns the outcome together with the
resulting store (`now` stands in for the wall-clock timestamp). -/
def create_string (db : Db) (value now : List Char) :
    Except StoreErr StoredString × Db :=
  if (dbValues db).any (fun st => st.value == value) then
    (Except.error StoreErr.duplicate, db)
  else
    let sha := generate_sha_256 value
    let stored : StoredString := ⟨sha, value, analyze value, now⟩
    (Except.ok stored, upsert db sha stored)

/-- `get_string` from the source: first an exact identifier (key) lookup,
then a scan for an exact raw-value match, else not-found. -/
def get_string (db : Db) (identifier : List Char) : Except StoreErr StoredString :=
  match lookupKey db identifier with
  | some st => Except.ok st
  | none =>
    match (dbValues db).find? (fun st => st.value == identifier) with
    | some st => Except.ok st
    | none => Except.error StoreErr.notFound

/-! ### Structured filter matcher and list endpoint -/

/-- The sparse filter predicate set of `GET /strings`. -/
structure Filters where
  is_palindrome : Option Bool := none
  min_length : Option Nat := none
  max_length : Option Nat := none
  word_count : Option Nat := none
  contains_character : Option Char := none
deriving DecidableEq

/-- Key membership in the frequency map (`ch in p.character_frequency_map`). -/
def hasKey (m : List (Char × Nat)) (c : Char) : Bool :=
  m.any (fun kv => kv.1 == c)

/-- `matchesFilter` embeds `matches` from the source: every present constraint must hold, each
checked exactly as in the code's early-return chain. -/
def matchesFilter (f : Filters) (st : StoredString) : Bool :=
  let p := st.properties
  (match f.is_palindrome with
   | some b => p.is_palindrome == b
   | none => true) &&
  (match f.min_length with
   | some n => !(p.length < n)
   | none => true) &&
  (match f.max_length with
   | some n => !(p.length > n)
   | none => true) &&
  (match f.word_count with
   | some n => p.word_count == n
   | none => true) &&
  (match f.contains_character with
   | some c => hasKey p.character_frequency_map (pyLower c)
   | none => true)

inductive ListErr where
  | validation
deriving DecidableEq

/-- The response body of `GET /strings`. -/
structure ListResult where
  data : List StoredString
  count : Nat
  returned : Nat
deriving DecidableEq

/-- The validation `min_length is not None and max_length is not None and
min_length > max_length`. -/
def minMaxConflict (mn mx : Option Nat) : Bool :=
  match mn, mx with
  | some a, some b => a > b
  | _, _ => false

/-- `list_strings` from the source: rejects `min_length > max_length`,
otherwise filters the store's records in insertion order, windows them with
`skip`/`limit`, and reports the total match count. -/
def list_strings (db : Db) (f : Filters) (skip limit : Nat) :
    Except ListErr ListResult :=
  if minMaxConflict f.min_length f.max_length then
    Except.error ListErr.validation
  else
    let all := (dbValues db).filter (matchesFilter f)
    let paginated := (all.drop skip).take limit
    Except.ok ⟨paginated, all.length, paginated.length⟩

/-! ### Natural-language query translator -/

/-- ASCII letter test, the character class `[a-zA-Z]`. -/
def isAsciiLetter (c : Char) : Bool :=
  ('a' ≤ c ∧ c ≤ 'z') ∨ ('A' ≤ c ∧ c ≤ 'Z')

/-- ASCII digit test, the character class `\d`. -/
def isDigitChar (c : Char) : Bool :=
  '0' ≤ c ∧ c ≤ '9'

/-- Python's substring test `pat in s`: `pat` occurs contiguously in `s`. -/
def isSubstr (pat : List Char) : List Char → Bool
  | [] => pat.isEmpty
  | c :: rest => pat.isPrefixOf (c :: rest) || isSubstr pat rest

/-- Drops a literal from the front of the input, or fails. -/
def dropLit (lit s : List Char) : Option (List Char) :=
  if lit.isPrefixOf s then some (s.drop lit.length) else none

/-- Matches `\s+([a-zA-Z])` at the front of the input with the regex engine's
greedy backtracking, which here amounts to: at least one whitespace
character, and the first non-whitespace character after the run must be a
letter (the capture). -/
def wsThenLetter : List Char → Option Char
  | [] => none
  | c :: rest =>
    if isPyWs c then
      match rest with
      | [] => none
      | d :: _ =>
        if isPyWs d then wsThenLetter rest
        else if isAsciiLetter d then some d
        else none
    else none

/-- The tail of the contains-pattern after the optional suffix: the optional
literal ` the letter` (tried greedily first), then `\s+([a-zA-Z])`. -/
def containTail (r : List Char) : Option Char :=
  match dropLit " the letter".data r with
  | some r2 =>
    match wsThenLetter r2 with
    | some c => some c
    | none => wsThenLetter r
  | none => wsThenLetter r

/-- Matches `contain(?:s|ing)?(?: the letter)?\s+([a-zA-Z])` anchored at the
front of the input, trying the suffix alternatives `s`, `ing`, empty in the
regex engine's order. -/
def matchContainAt (s : List Char) : Option Char :=
  match dropLit "contain".data s with
  | none => none
  | some r =>
    match (match dropLit "s".data r with
           | some r1 => containTail r1
           | none => none) with
    | some c => some c
    | none =>
      match (match dropLit "ing".data r with
             | some r1 => containTail r1
             | none => none) with
      | some c => some c
      | none => containTail r

/-- `re.search` of the contains-pattern: the leftmost position where it
matches wins. -/
def containSearch : List Char → Option Char
  | [] => none
  | c :: rest =>
    match matchContainAt (c :: rest) with
    | some x => some x
    | none => containSearch rest

/-- The maximal digit run at the front of the input (`(\d+)`, greedy). -/
def digitRun : List Char → List Char
  | [] => []
  | c :: rest => if isDigitChar c then c :: digitRun rest else []

/-- Decimal value of a digit run (`int(...)`). -/
def digitsToNat (ds : List Char) : Nat :=
  ds.foldl (fun a c => a * 10 + (c.toNat - 48)) 0

/-- Matches `longer than (\d+)` anchored at the front of the input. -/
def matchLongerAt (s : List Char) : Option Nat :=
  match dropLit "longer than ".data s with
  | none => none
  | some r =>
    match digitRun r with
    | [] => none
    | ds => some (digitsToNat ds)

/-- `re.search` of `longer than (\d+)`: leftmost match wins. -/
def longerSearch : List Char → Option Nat
  | [] => none
  | c :: rest =>
    match matchLongerAt (c :: rest) with
    | some n => some n
    | none => longerSearch rest

/-- The translator's `parsed_filters` dictionary: each optional field is a
key that a heuristic may set. -/
structure ParsedFilters where
  word_count : Option Nat := none
  min_word_count : Option Nat := none
  is_palindrome : Option Bool := none
  min_length : Option Nat := none
  max_length : Option Nat := none
  contains_character : Option Char := none
deriving DecidableEq

/-- Heuristic rule 1: "single word" / "single-word" sets `word_count = 1`. -/
def ruleSingle (q : List Char) (pf : ParsedFilters) : ParsedFilters :=
  if isSubstr "single word".data q ∨ isSubstr "single-word".data q then
    { pf with word_count := some 1 } else pf

/-- Heuristic rule 2: "more than one word" / "multiple words" sets
`min_word_count = 2` (a field the matcher never reads). -/
def ruleMulti (q : List Char) (pf : ParsedFilters) : ParsedFilters :=
  if isSubstr "more than one word".data q ∨ isSubstr "multiple words".data q then
    { pf with min_word_count := some 2 } else pf

/-- Heuristic rule 3: the substring "palindrom" sets `is_palindrome = true`. -/
def rulePalin (q : List Char) (pf : ParsedFilters) : ParsedFilters :=
  if isSubstr "palindrom".data q then
    { pf with is_palindrome := some true } else pf

/-- Heuristic rule 4: `longer than (\d+)` sets `min_length = N + 1`. -/
def ruleLonger (q : List Char) (pf : ParsedFilters) : ParsedFilters :=
  match longerSearch q with
  | some n => { pf with min_length := some (n + 1) }
  | none => pf

/-- Heuristic rule 5: the contains-pattern sets `contains_character` to the
lowercased captured letter. -/
def ruleContain (q : List Char) (pf : ParsedFilters) : ParsedFilters :=
  match containSearch q with
  | some c => { pf with contains_character := some (pyLower c) }
  | none => pf

/-- Heuristic rule 6: "first vowel" defaults `contains_character` to `'a'`
without overriding a value rule 5 already set (`dict.get` with default). -/
def ruleVowel (q : List Char) (pf : ParsedFilters) : ParsedFilters :=
  if isSubstr "first vowel".data q then
    { pf with contains_character := some (pf.contains_character.getD 'a') } else pf

/-- The heuristic rules of `filter_by_natural_language`, applied in the
source's order to the lowercased query. -/
def parsedFilters (query : List Char) : ParsedFilters :=
  let q := query.map pyLower
  ruleVowel q (ruleContain q (ruleLonger q (rulePalin q (ruleMulti q (ruleSingle q {})))))

inductive TransErr where
  | parse
  | conflict
deriving DecidableEq

/-- `not query.strip()`: the query is empty or entirely whitespace. -/
def stripEmpty (s : List Char) : Bool :=
  s.all isPyWs

/-- The translation part of `filter_by_natural_language`: reject an
empty/whitespace query, run the heuristics, reject an empty predicate set
(400) and internally conflicting length bounds (422), otherwise return the
predicate set together with the echoed original query. -/
def translate (query : List Char) : Except TransErr (ParsedFilters × List Char) :=
  if stripEmpty query then Except.error TransErr.parse
  else
    let pf := parsedFilters query
    if pf = ({} : ParsedFilters) then Except.error TransErr.parse
    else if minMaxConflict pf.min_length pf.max_length then
      Except.error TransErr.conflict
    else Except.ok (pf, query)

/-- Recognizer for the translator's 422 conflict outcome. -/
def isConflictErr : Except TransErr (ParsedFilters × List Char) → Bool
  | Except.error TransErr.conflict => true
  | _ => false

/-- The spec's normalized form: case-fold, then remove every character that
is not alphanumeric. -/
def normalize_spec (s : List Char) : List Char :=
  (s.map pyLower).filter isAlnum

/-- Sum of the values of a frequency map. -/
def sumValues (m : List (Char × Nat)) : Nat :=
  (m.map Prod.snd).sum

/-- A concrete record, store and list response used by witnesses. -/
def sampleRecord : StoredString :=
  ⟨"id1".data, "abc".data, analyze "abc".data, "t".data⟩

def sampleDb : Db := [("id1".data, sampleRecord)]

def sampleListResult : ListResult := ⟨[sampleRecord], 1, 1⟩

/-- A record, a one-record store holding it, and the store obtained by a
first successful create of `"ab"`, used by the duplicate/round-trip
witnesses. -/
def dupRecord : StoredString :=
  ⟨"k0".data, "w".data, analyze "w".data, "t0".data⟩

def dupDb : Db := [("k0".data, dupRecord)]

def sampleCreated : StoredString :=
  ⟨generate_sha_256 "ab".data, "ab".data, analyze "ab".data, "t".data⟩

def sampleDb1 : Db := [(generate_sha_256 "ab".data, sampleCreated)]

/-- A store whose sole record has identifier `"k"` but value `"w"`, the
record created for raw value `"k"`, and the store after that create. -/
def recW : StoredString :=
  ⟨"k".data, "w".data, analyze "w".data, "t0".data⟩

def dbK : Db := [("k".data, recW)]

def stK : StoredString :=
  ⟨generate_sha_256 "k".data, "k".data, analyze "k".data, "t1".data⟩

def dbK2 : Db := [("k".data, recW), (generate_sha_256 "k".data, stK)]

/-! ### Character-level lemmas and normalization -/

theorem toNat_ofNat_valid (n : Nat) (h : n.isValidChar) : (Char.ofNat n).toNat = n := by
  simp [Char.ofNat, h, Char.ofNatAux, Char.toNat, UInt32.toNat, BitVec.toNat_ofNatLt]

theorem pyLower_idem (c : Char) : pyLower (pyLower c) = pyLower c := by
  by_cases h : 65 ≤ c.toNat ∧ c.toNat ≤ 90
  · have hv : (c.toNat + 32).isValidChar := Or.inl (by omega)
    have h1 : pyLower c = Char.ofNat (c.toNat + 32) := by
      unfold pyLower
      rw [if_pos ⟨h.1, h.2⟩]
    rw [h1]
    unfold pyLower
    rw [toNat_ofNat_valid _ hv]
    have hno : ¬(c.toNat + 32 ≥ 65 ∧ c.toNat + 32 ≤ 90) := by omega
    rw [if_neg hno]
  · have h1 : pyLower c = c := by
      unfold pyLower
      rw [if_neg h]
    rw [h1, h1]

theorem mem_clean_lower (s : List Char) : ∀ c ∈ clean_for_char_ops s, pyLower c = c := by
  intro c hc
  unfold clean_for_char_ops at hc
  have hc' := List.mem_of_mem_filter hc
  rcases List.mem_map.mp hc' with ⟨d, _, rfl⟩
  exact pyLower_idem d

theorem clean_idem (s : List Char) :
    clean_for_char_ops (clean_for_char_ops s) = clean_for_char_ops s := by
  have hmap : (clean_for_char_ops s).map pyLower = clean_for_char_ops s := by
    have := List.map_congr_left (mem_clean_lower s)
    simpa using this
  show ((clean_for_char_ops s).map pyLower).filter
      (fun c => isWordChar c && !decide (c.toNat = 95)) = clean_for_char_ops s
  rw [hmap]
  apply List.filter_eq_self.mpr
  intro c hc
  unfold clean_for_char_ops at hc
  exact (List.mem_filter.mp hc).2

theorem keep_eq_isAlnum (c : Char) :
    (isWordChar c && !decide (c.toNat = 95)) = isAlnum c := by
  unfold isWordChar isAlnum
  rw [← decide_not, ← Bool.decide_and, decide_eq_decide]
  omega

theorem clean_eq_normalize (s : List Char) :
    clean_for_char_ops s = normalize_spec s := by
  unfold clean_for_char_ops normalize_spec
  exact List.filter_congr (fun c _ => keep_eq_isAlnum c)

/-! ### Claim theorems: analyzer -/

/-- C7: normalization (case-fold, then remove every non-alphanumeric
character) is idempotent: `normalize(normalize(s)) = normalize(s)` for the
source's `clean_for_char_ops`. -/
theorem claim_normalize_idempotent :
    ∀ s : List Char, clean_for_char_ops (clean_for_char_ops s) = clean_for_char_ops s :=
  clean_idem

/-- C1: the analyzer's `is_palindrome` flag equals the test that the
normalized form of the string (case-folded, non-alphanumeric characters
removed) equals its own reverse; in particular
`"A man, a plan, a canal: Panama"` analyzes as a palindrome and `"hello"`
does not. -/
theorem claim_palindrome_normalized :
    (∀ s : List Char,
      (analyze s).is_palindrome = (normalize_spec s == (normalize_spec s).reverse)) ∧
    (analyze "A man, a plan, a canal: Panama".data).is_palindrome = true ∧
    (analyze "hello".data).is_palindrome = false := by
  refine ⟨fun s => ?_, by decide, by decide⟩
  show palindrome s = (normalize_spec s == (normalize_spec s).reverse)
  unfold palindrome
  rw [clean_eq_normalize]

theorem sumValues_bump (m : List (Char × Nat)) (c : Char) :
    sumValues (bump m c) = sumValues m + 1 := by
  induction m with
  | nil => rfl
  | cons kv rest ih =>
    obtain ⟨k, v⟩ := kv
    unfold bump
    by_cases h : k = c
    · simp only [if_pos h, sumValues, List.map_cons, List.sum_cons]
      omega
    · simp only [if_neg h, sumValues, List.map_cons, List.sum_cons] at ih ⊢
      omega

theorem sumValues_foldl_bump (l : List Char) :
    ∀ m, sumValues (l.foldl bump m) = sumValues m + l.length := by
  induction l with
  | nil => intro m; simp
  | cons c rest ih =>
    intro m
    simp only [List.foldl_cons, List.length_cons, ih (bump m c), sumValues_bump]
    omega

/-- C10: the analyzer's derived fields are mutually consistent:
`unique_characters` equals the number of keys of the frequency map, and the
values of the frequency map sum to the length of the normalized form. -/
theorem claim_analyzer_consistency :
    ∀ s : List Char,
      (analyze s).unique_characters =
        ((analyze s).character_frequency_map.map Prod.fst).length ∧
      sumValues (analyze s).character_frequency_map = (clean_for_char_ops s).length := by
  intro s
  constructor
  · show unique_characters_count s = ((char_count s).map Prod.fst).length
    simp [unique_characters_count]
  · show sumValues (char_count s) = _
    unfold char_count
    rw [sumValues_foldl_bump]
    simp [sumValues]

/-! ### Claim theorems: filter matcher and list endpoint -/

set_option maxRecDepth 4000

/-- C2: a record matches a predicate set iff every present constraint is
individually satisfied — `is_palindrome` and `word_count` by exact equality,
`min_length`/`max_length` as inclusive bounds on the record's length,
`contains_character` by case-folded key membership in the frequency map;
absent constraints impose no restriction. -/
theorem claim_matches_conjunction :
    ∀ (f : Filters) (st : StoredString),
      matchesFilter f st = true ↔
        ((∀ b, f.is_palindrome = some b → st.properties.is_palindrome = b) ∧
         (∀ n, f.min_length = some n → n ≤ st.properties.length) ∧
         (∀ n, f.max_length = some n → st.properties.length ≤ n) ∧
         (∀ n, f.word_count = some n → st.properties.word_count = n) ∧
         (∀ c, f.contains_character = some c →
            hasKey st.properties.character_frequency_map (pyLower c) = true)) := by
  intro f st
  obtain ⟨fp, fmin, fmax, fwc, fcc⟩ := f
  cases fp <;> cases fmin <;> cases fmax <;> cases fwc <;> cases fcc <;>
    simp [matchesFilter, Nat.not_lt, and_assoc]

/-- C6: a successful `list` reports a total match count equal to the number
of records satisfying the predicate — a quantity independent of the
`skip`/`limit` window — and returns that window of the matching records,
which is a subsequence of the store in insertion order. -/
theorem claim_list_pagination :
    ∀ (db : Db) (f : Filters) (skip limit : Nat) (r : ListResult),
      list_strings db f skip limit = Except.ok r →
        r.count = ((dbValues db).filter (matchesFilter f)).length ∧
        r.data = (((dbValues db).filter (matchesFilter f)).drop skip).take limit ∧
        r.data.Sublist (dbValues db) := by
  intro db f skip limit r h
  unfold list_strings at h
  by_cases hc : minMaxConflict f.min_length f.max_length = true
  · rw [if_pos hc] at h
    cases h
  · rw [if_neg hc] at h
    cases h
    refine ⟨rfl, rfl, ?_⟩
    exact ((List.take_sublist _ _).trans (List.drop_sublist _ _)).trans
      (List.filter_sublist _)

/-- Witness for C6 at a one-record store with the empty predicate set. -/
theorem claim_list_pagination_witness :
    sampleListResult.count = ((dbValues sampleDb).filter (matchesFilter {})).length ∧
    sampleListResult.data =
      (((dbValues sampleDb).filter (matchesFilter {})).drop 0).take 100 ∧
    sampleListResult.data.Sublist (dbValues sampleDb) :=
  claim_list_pagination sampleDb {} 0 100 sampleListResult (by rfl)

/-! ### Store lemmas and claim theorems: create / get -/

theorem lookupKey_upsert_self (db : Db) (k : List Char) (v : StoredString) :
    lookupKey (upsert db k v) k = some v := by
  induction db with
  | nil => simp [upsert, lookupKey]
  | cons kv rest ih =>
    obtain ⟨k', v'⟩ := kv
    unfold upsert
    by_cases h : k' = k
    · rw [if_pos h]
      unfold lookupKey
      rw [if_pos rfl]
    · rw [if_neg h]
      unfold lookupKey
      rw [if_neg h]
      exact ih

theorem lookupKey_upsert_ne (db : Db) (k key : List Char) (v : StoredString)
    (h : key ≠ k) : lookupKey (upsert db k v) key = lookupKey db key := by
  induction db with
  | nil =>
    unfold upsert lookupKey
    rw [if_neg (fun e => h e.symm)]
    rfl
  | cons kv rest ih =>
    obtain ⟨k', v'⟩ := kv
    unfold upsert
    by_cases hk : k' = k
    · rw [if_pos hk]
      unfold lookupKey
      rw [if_neg (fun e => h e.symm), if_neg (fun e => (hk ▸ h) e.symm)]
    · rw [if_neg hk]
      unfold lookupKey
      by_cases h2 : k' = key
      · rw [if_pos h2, if_pos h2]
      · rw [if_neg h2, if_neg h2]
        exact ih

theorem lookupKey_none (db : Db) (key : List Char)
    (h : ∀ kv ∈ db, kv.1 ≠ key) : lookupKey db key = none := by
  induction db with
  | nil => rfl
  | cons kv rest ih =>
    obtain ⟨k', v'⟩ := kv
    unfold lookupKey
    rw [if_neg (h (k', v') (by simp))]
    exact ih (fun x hx => h x (by simp [hx]))

theorem find_upsert (db : Db) (k : List Char) (stRec : StoredString) (v : List Char)
    (hval : stRec.value = v) (h : ∀ st ∈ dbValues db, st.value ≠ v) :
    (dbValues (upsert db k stRec)).find? (fun st => st.value == v) = some stRec := by
  induction db with
  | nil => simp [upsert, dbValues, List.find?, hval]
  | cons kv rest ih =>
    obtain ⟨k', v'⟩ := kv
    unfold upsert
    by_cases hk : k' = k
    · rw [if_pos hk]
      have hv' : stRec.value == v := by simp [hval]
      simp [dbValues, List.find?, hv']
    · rw [if_neg hk]
      have hv' : v'.value ≠ v := h v' (by simp [dbValues])
      show List.find? _ (v' :: dbValues (upsert rest k stRec)) = _
      rw [List.find?_cons_of_neg _ (by simp [hv'])]
      exact ih (fun x hx => h x (by simp [dbValues] at hx ⊢; exact Or.inr hx))

/-- C3: when a record with raw value exactly `v` is already stored,
`create(v)` fails with a duplicate error and leaves the store unchanged; in
particular creating the same raw value twice on an empty store yields the
duplicate error on the second attempt while the store size remains 1. -/
theorem claim_create_duplicate :
    (∀ (db : Db) (v now : List Char),
      (∃ st ∈ dbValues db, st.value = v) →
        create_string db v now = (Except.error StoreErr.duplicate, db)) ∧
    (∀ (v now now' : List Char) (st : StoredString) (db1 : Db),
      create_string [] v now = (Except.ok st, db1) →
        (create_string db1 v now').1 = Except.error StoreErr.duplicate ∧
        db1.length = 1) := by
  constructor
  · rintro db v now ⟨st, hmem, hval⟩
    unfold create_string
    have hany : (dbValues db).any (fun st => st.value == v) = true :=
      List.any_eq_true.mpr ⟨st, hmem, by simp [hval]⟩
    rw [if_pos hany]
  · intro v now now' st db1 h
    unfold create_string at h
    have hany : (dbValues ([] : Db)).any (fun st => st.value == v) = false := rfl
    rw [if_neg (by simp [hany])] at h
    injection h with h1 h2
    injection h1 with h1
    subst h1
    subst h2
    constructor
    · unfold create_string
      have : (dbValues (upsert [] (generate_sha_256 v)
          ⟨generate_sha_256 v, v, analyze v, now⟩)).any
            (fun st => st.value == v) = true := by
        simp [upsert, dbValues]
      rw [if_pos this]
    · rfl

/-- Witness for C3: a store already holding `"w"` rejects a second `"w"`;
a fresh store accepts `"ab"`, then rejects it with size still 1. -/
theorem claim_create_duplicate_witness :
    create_string dupDb "w".data "t".data = (Except.error StoreErr.duplicate, dupDb) ∧
    ((create_string sampleDb1 "ab".data "t2".data).1 = Except.error StoreErr.duplicate ∧
      sampleDb1.length = 1) :=
  ⟨claim_create_duplicate.1 dupDb "w".data "t".data
      ⟨dupRecord, by simp [dupDb, dbValues], rfl⟩,
   claim_create_duplicate.2 "ab".data "t".data "t2".data sampleCreated sampleDb1 rfl⟩

/-- C9 (amended): after a successful `create(v)` on a store that holds no
record with value `v`, a `get` with the SHA-256 hex digest of `v` returns
exactly the record just created, and so does a `get` with `v` itself
provided `v` is not already one of the store's identifiers (keys). -/
theorem claim_create_get_roundtrip :
    ∀ (db : Db) (v now : List Char),
      (∀ st ∈ dbValues db, st.value ≠ v) →
      (∀ kv ∈ db, kv.1 ≠ v) →
      ∀ (st : StoredString) (db' : Db),
        create_string db v now = (Except.ok st, db') →
          get_string db' (generate_sha_256 v) = Except.ok st ∧
          get_string db' v = Except.ok st := by
  intro db v now h1 h2 st db' h
  unfold create_string at h
  have hany : (dbValues db).any (fun st => st.value == v) = false := by
    apply List.any_eq_false.mpr
    intro x hx
    simp [h1 x hx]
  rw [if_neg (by simp [hany])] at h
  injection h with hl hr
  injection hl with hl
  subst hl
  subst hr
  constructor
  · unfold get_string
    rw [lookupKey_upsert_self]
  · by_cases hv : v = generate_sha_256 v
    · unfold get_string
      rw [← hv]
      rw [lookupKey_upsert_self]
    · unfold get_string
      rw [lookupKey_upsert_ne db _ v _ hv, lookupKey_none db v h2,
        find_upsert db _ _ v rfl h1]

/-- Witness for C9 at the empty store and value `"ab"`. -/
theorem claim_create_get_roundtrip_witness :
    get_string sampleDb1 (generate_sha_256 "ab".data) = Except.ok sampleCreated ∧
    get_string sampleDb1 "ab".data = Except.ok sampleCreated :=
  claim_create_get_roundtrip [] "ab".data "t".data (by simp [dbValues]) (by simp)
    sampleCreated sampleDb1 rfl

/-- Counterexample to C9 as stated: `"k"` is not stored as a value in `dbK`,
its create succeeds, yet `get("k")` returns the pre-existing record whose
identifier is `"k"`, not the record just created. -/
theorem claim_create_get_roundtrip_counterexample :
    recW.value ≠ "k".data ∧
    create_string dbK "k".data "t1".data = (Except.ok stK, dbK2) ∧
    get_string dbK2 "k".data = Except.ok recW ∧
    recW ≠ stK := by
  refine ⟨by decide, by decide, by decide, by decide⟩

/-! ### Translator lemmas and claim theorems -/

theorem ruleSingle_max (q : List Char) (pf : ParsedFilters) :
    (ruleSingle q pf).max_length = pf.max_length := by
  unfold ruleSingle
  split <;> rfl

theorem ruleMulti_max (q : List Char) (pf : ParsedFilters) :
    (ruleMulti q pf).max_length = pf.max_length := by
  unfold ruleMulti
  split <;> rfl

theorem rulePalin_max (q : List Char) (pf : ParsedFilters) :
    (rulePalin q pf).max_length = pf.max_length := by
  unfold rulePalin
  split <;> rfl

theorem ruleLonger_max (q : List Char) (pf : ParsedFilters) :
    (ruleLonger q pf).max_length = pf.max_length := by
  unfold ruleLonger
  cases longerSearch q <;> rfl

theorem ruleContain_max (q : List Char) (pf : ParsedFilters) :
    (ruleContain q pf).max_length = pf.max_length := by
  unfold ruleContain
  cases containSearch q <;> rfl

theorem ruleVowel_max (q : List Char) (pf : ParsedFilters) :
    (ruleVowel q pf).max_length = pf.max_length := by
  unfold ruleVowel
  split <;> rfl

theorem parsedFilters_max (q : List Char) : (parsedFilters q).max_length = none := by
  show (ruleVowel (q.map pyLower) _).max_length = none
  rw [ruleVowel_max, ruleContain_max, ruleLonger_max, rulePalin_max, ruleMulti_max,
    ruleSingle_max]

theorem minMaxConflict_none (mn : Option Nat) : minMaxConflict mn none = false := by
  cases mn <;> rfl

/-- C8: no heuristic rule sets `max_length`, so the translator's
`min_length > max_length` conflict branch (422) is unreachable: translation
never returns the conflict error. -/
theorem claim_conflict_unreachable :
    ∀ q : List Char,
      (parsedFilters q).max_length = none ∧ isConflictErr (translate q) = false := by
  intro q
  refine ⟨parsedFilters_max q, ?_⟩
  unfold translate
  by_cases h1 : stripEmpty q = true
  · rw [if_pos h1]
    rfl
  · rw [if_neg h1]
    by_cases h2 : parsedFilters q = ({} : ParsedFilters)
    · rw [if_pos h2]
      rfl
    · rw [if_neg h2]
      rw [parsedFilters_max q, minMaxConflict_none]
      rfl

/-- C5: translation fails with the parse error exactly when the query is
empty or whitespace-only or no heuristic fires (the derived predicate set is
empty); otherwise it returns the predicate set together with an echo of the
original text. -/
theorem claim_translate_parse :
    ∀ q : List Char,
      translate q =
        if (stripEmpty q || (parsedFilters q == ({} : ParsedFilters))) then
          Except.error TransErr.parse
        else Except.ok (parsedFilters q, q) := by
  intro q
  unfold translate
  by_cases h1 : stripEmpty q = true
  · simp [h1]
  · by_cases h2 : parsedFilters q = ({} : ParsedFilters)
    · simp [h1, h2]
    · have hmm : minMaxConflict (parsedFilters q).min_length
          (parsedFilters q).max_length = false := by
        rw [parsedFilters_max q, minMaxConflict_none]
      simp [h1, h2, hmm]

theorem ruleSingle_cc (q : List Char) (pf : ParsedFilters) :
    (ruleSingle q pf).contains_character = pf.contains_character := by
  unfold ruleSingle
  split <;> rfl

theorem ruleMulti_cc (q : List Char) (pf : ParsedFilters) :
    (ruleMulti q pf).contains_character = pf.contains_character := by
  unfold ruleMulti
  split <;> rfl

theorem rulePalin_cc (q : List Char) (pf : ParsedFilters) :
    (rulePalin q pf).contains_character = pf.contains_character := by
  unfold rulePalin
  split <;> rfl

theorem ruleLonger_cc (q : List Char) (pf : ParsedFilters) :
    (ruleLonger q pf).contains_character = pf.contains_character := by
  unfold ruleLonger
  cases longerSearch q <;> rfl

/-- C4 (amended): `contains_character` is set to the lowercased captured
letter exactly when the source's contains-pattern — in which the `s`/`ing`
suffix is optional and the capture is the first letter after the whitespace
run, not necessarily a single-letter token — matches the lowercased query;
when it does not match, the "first vowel" fallback sets the field to `'a'`;
otherwise the field stays unset. -/
theorem claim_contains_heuristic :
    ∀ q : List Char,
      (parsedFilters q).contains_character =
        (match containSearch (q.map pyLower) with
         | some c => some (pyLower c)
         | none =>
           if isSubstr "first vowel".data (q.map pyLower) then some 'a' else none) := by
  intro q
  show (ruleVowel (q.map pyLower) (ruleContain (q.map pyLower) _)).contains_character = _
  have h4 : (ruleLonger (q.map pyLower) (rulePalin (q.map pyLower)
      (ruleMulti (q.map pyLower) (ruleSingle (q.map pyLower) {})))).contains_character
      = none := by
    rw [ruleLonger_cc, rulePalin_cc, ruleMulti_cc, ruleSingle_cc]
  unfold ruleVowel ruleContain
  cases hcs : containSearch (q.map pyLower) with
  | some c =>
    split <;> simp
  | none =>
    dsimp only
    split
    · simp [h4]
    · simpa using h4

/-- Counterexample to C4 as stated: the query "show me first vowel words"
contains no occurrence of "contain", so it cannot match any
`contain(s|ing)`-style regex, yet the translator sets
`contains_character = 'a'` through the first-vowel fallback. -/
theorem claim_contains_heuristic_counterexample :
    (parsedFilters "show me first vowel words".data).contains_character = some 'a' ∧
    isSubstr "contain".data ("show me first vowel words".data.map pyLower) = false :=
  ⟨by decide, by decide⟩

end StringSerializer

